import Mathlib

/-!
Verification development for the entitlement / quota / billing core of
`src/backend/app.py` (repository forstudents).

The embedding models the persistent store (users, documents, the usage
ledger `document_accesses` and audit log `download_audits`) as explicit
state, and the relevant request handlers (`download_doc`,
`billing_webhook`, `start_checkout`) as state-passing functions, mirroring
the source control flow line by line.  Fields of the source models that do
not feed the entitlement decision (titles, file names, timestamps, ip and
user-agent strings, storage descriptors) are elided; the HTTP framing and
the post-decision storage resolution (lines 523-551) are outside the
modelled decision and state changes.
-/

namespace ForStudents

/-- A user row: `role` is `"user"` or `"admin"`, `subscription_status` is
`"free"` or `"paid"` (source: `class User`, app.py lines 93-104). -/
structure UserRec where
  role : String
  subscription_status : String
deriving DecidableEq

/-- A document row: only `status` (`"pending" | "approved" | "rejected"`)
feeds the entitlement decision (source: `class Document`, lines 125-140). -/
structure DocRec where
  status : String
deriving DecidableEq

/-- The persistent store.  `accesses` is the usage ledger
(`document_accesses`, unique on (user_id, document_id), lines 160-169) as a
list of (user_id, document_id) pairs; `audits` is the audit log
(`download_audits`, lines 195-202) with its client metadata elided. -/
structure AppState where
  users : List (Nat × UserRec)
  docs : List (Nat × DocRec)
  accesses : List (Nat × Nat)
  audits : List (Nat × Nat)
deriving DecidableEq

/-- The set comprehension of app.py line 498,
`accessed = {a.document_id for a in user.accesses}`, computed over a raw
ledger list: the distinct document ids among the user's ledger rows. -/
def accessedOf (acc : List (Nat × Nat)) (uid : Nat) : Finset Nat :=
  ((acc.filter (fun p => p.1 == uid)).map (fun p => p.2)).toFinset

/-- The `accessed` set of app.py line 498 for a state. -/
def accessedDocs (s : AppState) (uid : Nat) : Finset Nat :=
  accessedOf s.accesses uid

/-- Outcome of a download request: 404 (`get_or_404` / missing user),
403 "Document not available", 402 "Upgrade required", or the allowed path
(the response past line 505). -/
inductive DownloadResult where
  | notFound
  | notAvailable
  | quotaExceeded
  | allowed
deriving DecidableEq

/-- Lines 488-505 of `download_doc`: load user and document, the
availability check (line 494), the free-plan quota check (lines 497-501),
and the conditional ledger insert + commit (lines 503-505). -/
def ledgerPhase (limit : Nat) (s : AppState) (uid docId : Nat) :
    DownloadResult × AppState :=
  match s.users.lookup uid with
  | none => (.notFound, s)
  | some user =>
    match s.docs.lookup docId with
    | none => (.notFound, s)
    | some doc =>
      if doc.status ≠ "approved" ∧ user.role ≠ "admin" then
        (.notAvailable, s)
      else if user.role ≠ "admin" ∧ user.subscription_status ≠ "paid" ∧
          docId ∉ accessedDocs s uid ∧ limit ≤ (accessedDocs s uid).card then
        (.quotaExceeded, s)
      else if docId ∈ accessedDocs s uid then
        (.allowed, s)
      else
        (.allowed, { s with accesses := s.accesses ++ [(uid, docId)] })

/-- Lines 507-521 of `download_doc`: the best-effort audit append.  The
`auditOk` flag models whether the `db.session.commit()` of the audit row
raises; on failure the `except` branch rolls back only the uncommitted
audit insert (the ledger commit of line 505 already happened), so the
state is left exactly as the ledger phase produced it. -/
def auditPhase (uid docId : Nat) (auditOk : Bool) :
    DownloadResult × AppState → DownloadResult × AppState
  | (res, s) =>
    if res = .allowed then
      if auditOk then (res, { s with audits := s.audits ++ [(uid, docId)] })
      else (res, s)
    else (res, s)

/-- The `download_doc` handler (app.py lines 488-521): ledger phase then
best-effort audit phase.  The returned `DownloadResult` is the decision
surfaced to the caller; storage resolution (lines 523-551) happens after
and does not change state. -/
def download_doc (limit : Nat) (s : AppState) (uid docId : Nat)
    (auditOk : Bool) : DownloadResult × AppState :=
  auditPhase uid docId auditOk (ledgerPhase limit s uid docId)

/-- A verified Stripe webhook event: its `type` string and the
`metadata.user_id` correlation key (attached at checkout creation,
line 620), `none` when the metadata carries no user id. -/
structure PaymentEvent where
  type : String
  user_id : Option Nat
deriving DecidableEq

/-- Row update: the user row with id `uid` gets `subscription_status = v`,
other rows are unchanged. -/
def setSubRow (uid : Nat) (v : String) (p : Nat × UserRec) : Nat × UserRec :=
  if p.1 = uid then (p.1, { p.2 with subscription_status := v }) else p

/-- Sets `user.subscription_status = v` for the user row with id `uid`
(the mutation of app.py lines 654 and 662, and line 628). -/
def setSubscription (s : AppState) (uid : Nat) (v : String) : AppState :=
  { s with users := s.users.map (setSubRow uid v) }

/-- The `billing_webhook` handler after signature verification (app.py
lines 648-665): `checkout.session.completed` sets the resolved user to
`"paid"`, `customer.subscription.deleted` sets it to `"free"`, any other
event type or a missing / unresolvable user id falls through, and the
handler acknowledges with `{"received": True}` in every case.  The
pre-verification 503/400 responses (lines 637-646) are outside the
verified-event model. -/
def billing_webhook (s : AppState) (ev : PaymentEvent) : Bool × AppState :=
  if ev.type = "checkout.session.completed" then
    match ev.user_id with
    | some uid =>
      match s.users.lookup uid with
      | some _ => (true, setSubscription s uid "paid")
      | none => (true, s)
    | none => (true, s)
  else if ev.type = "customer.subscription.deleted" then
    match ev.user_id with
    | some uid =>
      match s.users.lookup uid with
      | some _ => (true, setSubscription s uid "free")
      | none => (true, s)
    | none => (true, s)
  else (true, s)

/-- The state change of `start_checkout` (app.py lines 603-632) in the
simulated-payments path (lines 627-630): the current user becomes paid.
The real-Stripe path only creates an external session and changes no local
state. -/
def start_checkout (s : AppState) (uid : Nat) : AppState :=
  match s.users.lookup uid with
  | some _ => setSubscription s uid "paid"
  | none => s

/-- The `checkout.session.completed` event for user `uid` (line 648). -/
def completedEvent (uid : Nat) : PaymentEvent :=
  { type := "checkout.session.completed", user_id := some uid }

/-- The `customer.subscription.deleted` event for user `uid` (line 656). -/
def canceledEvent (uid : Nat) : PaymentEvent :=
  { type := "customer.subscription.deleted", user_id := some uid }

/-- Fold a list of verified payment events through `billing_webhook`. -/
def applyEvents (s : AppState) (evs : List PaymentEvent) : AppState :=
  evs.foldl (fun st ev => (billing_webhook st ev).2) s

/-- The subscription status of user `uid` as stored, `none` if no such
user row exists. -/
def getSubscription (s : AppState) (uid : Nat) : Option String :=
  (s.users.lookup uid).map (fun u => u.subscription_status)

/-- One state-changing operation of the modelled surface: a download
request, a (simulated) checkout, or a verified webhook event. -/
inductive Op where
  | download (uid docId : Nat) (auditOk : Bool)
  | checkout (uid : Nat)
  | webhook (ev : PaymentEvent)
deriving DecidableEq

/-- Whether an operation is a `customer.subscription.deleted` webhook. -/
def Op.isCancelEvent : Op → Bool
  | .webhook ev => ev.type = "customer.subscription.deleted"
  | _ => false

/-- State reached by one operation. -/
def applyOp (limit : Nat) (s : AppState) : Op → AppState
  | .download uid docId aok => (download_doc limit s uid docId aok).2
  | .checkout uid => start_checkout s uid
  | .webhook ev => (billing_webhook s ev).2

/-- State reached by a sequence of operations. -/
def runOps (limit : Nat) (s : AppState) (ops : List Op) : AppState :=
  ops.foldl (applyOp limit) s

/-- The distinct-document ledger count of a user — `len(accessed)` at
line 500, and the spec's `UsageLedger.countDistinctDocuments`. -/
def countDistinctDocuments (s : AppState) (uid : Nat) : Nat :=
  (accessedDocs s uid).card

/-- The spec's quota invariant (spec §8): every non-admin user whose
subscription status is `"free"` has at most `limit` distinct documents in
the ledger. -/
def QuotaInvariant (limit : Nat) (s : AppState) : Prop :=
  ∀ p ∈ s.users, p.2.role ≠ "admin" → p.2.subscription_status = "free" →
    countDistinctDocuments s p.1 ≤ limit

instance (limit : Nat) (s : AppState) : Decidable (QuotaInvariant limit s) := by
  unfold QuotaInvariant
  infer_instance

/-- Modelled from the spec: `Document Lifecycle.isReadableBy` (spec §4.1),
used to state the §4.3 policy for the refinement claim about the
decision. -/
def isReadableBy (doc : DocRec) (user : UserRec) : Prop :=
  doc.status = "approved" ∨ user.role = "admin"

instance (doc : DocRec) (user : UserRec) : Decidable (isReadableBy doc user) := by
  unfold isReadableBy
  infer_instance

/-- Modelled from the spec: `UsageLedger.hasAccessed` (spec §4.2), the
existence check on the unique (user, document) pair. -/
def hasAccessed (s : AppState) (uid docId : Nat) : Prop :=
  (uid, docId) ∈ s.accesses

instance (s : AppState) (uid docId : Nat) : Decidable (hasAccessed s uid docId) := by
  unfold hasAccessed
  infer_instance

/-- An entitlement decision in the spec's vocabulary (spec §4.3). -/
inductive Decision where
  | allow
  | denyNotAvailable
  | denyQuotaExceeded
deriving DecidableEq

/-- Modelled from the spec: the ordered entitlement policy of spec §4.3,
written from the spec's words to be compared with the source decision. -/
def decideSpec (limit : Nat) (s : AppState) (user : UserRec) (doc : DocRec)
    (uid docId : Nat) : Decision :=
  if ¬ isReadableBy doc user then .denyNotAvailable
  else if user.role = "admin" then .allow
  else if user.subscription_status = "paid" then .allow
  else if hasAccessed s uid docId then .allow
  else if countDistinctDocuments s uid < limit then .allow
  else .denyQuotaExceeded

/-- Maps a source download outcome to a spec decision; `notFound` (unknown
document or user id) is outside the spec policy's domain. -/
def resultToDecision : DownloadResult → Option Decision
  | .allowed => some .allow
  | .notAvailable => some .denyNotAvailable
  | .quotaExceeded => some .denyQuotaExceeded
  | .notFound => none

/-- Iterated download of the same (user, document) pair. -/
def iterDownload (limit : Nat) (uid docId : Nat) (auditOk : Bool) :
    Nat → AppState → AppState
  | 0, s => s
  | n + 1, s =>
    iterDownload limit uid docId auditOk n (download_doc limit s uid docId auditOk).2

/-- A download request handler in flight, for the interleaving model of
concurrent requests: `snapshot` is the `accessed` set read at line 498
(`none` before the read executes), `result` the decision once the handler
finished. -/
structure ReqState where
  snapshot : Option (Finset Nat)
  result : Option DownloadResult
deriving DecidableEq

/-- The decision-and-write part of `download_doc` (lines 494-521) executed
against a previously read `accessed` snapshot `snap`: the availability and
quota checks and the conditional ledger insert all use the in-memory
`accessed` set of line 498, not the current store, exactly as the source
does; only the insert and the audit append touch the shared store. -/
def commitFromSnapshot (limit : Nat) (s : AppState) (uid docId : Nat)
    (snap : Finset Nat) : DownloadResult × AppState :=
  match s.users.lookup uid with
  | none => (.notFound, s)
  | some user =>
    match s.docs.lookup docId with
    | none => (.notFound, s)
    | some doc =>
      if doc.status ≠ "approved" ∧ user.role ≠ "admin" then
        (.notAvailable, s)
      else if user.role ≠ "admin" ∧ user.subscription_status ≠ "paid" ∧
          docId ∉ snap ∧ limit ≤ snap.card then
        (.quotaExceeded, s)
      else if docId ∈ snap then
        (.allowed, { s with audits := s.audits ++ [(uid, docId)] })
      else
        (.allowed, { s with accesses := s.accesses ++ [(uid, docId)],
                            audits := s.audits ++ [(uid, docId)] })

/-- Advance one in-flight request by one atomic store interaction: first
the snapshot read of line 498, then the decision + writes of lines
494-521. -/
def stepReq (limit : Nat) (uid docId : Nat) (shared : AppState)
    (r : ReqState) : AppState × ReqState :=
  match r.snapshot with
  | none => (shared, { r with snapshot := some (accessedDocs shared uid) })
  | some snap =>
    match r.result with
    | none =>
      let out := commitFromSnapshot limit shared uid docId snap
      (out.2, { r with result := some out.1 })
    | some _ => (shared, r)

/-- Two concurrent download requests by the same user for documents `d1`
and `d2`, sharing one store. -/
structure RaceSystem where
  shared : AppState
  req1 : ReqState
  req2 : ReqState
deriving DecidableEq

/-- One interleaving step: schedule request 1 (`true`) or request 2
(`false`). -/
def raceStep (limit : Nat) (uid d1 d2 : Nat) (sys : RaceSystem)
    (first : Bool) : RaceSystem :=
  if first then
    let out := stepReq limit uid d1 sys.shared sys.req1
    { sys with shared := out.1, req1 := out.2 }
  else
    let out := stepReq limit uid d2 sys.shared sys.req2
    { sys with shared := out.1, req2 := out.2 }

/-- Run an interleaving schedule over the two-request system. -/
def runRace (limit : Nat) (uid d1 d2 : Nat) (sched : List Bool)
    (sys : RaceSystem) : RaceSystem :=
  sched.foldl (raceStep limit uid d1 d2) sys

/-- Concrete scenario state for the quota-upgrade scenario (spec §8):
free non-admin user 1, approved documents 1, 2, 3, ledger already holding
(1,1) and (1,2), `FREE_DOC_LIMIT = 2`. -/
def c6State : AppState :=
  { users := [(1, { role := "user", subscription_status := "free" })]
  , docs := [(1, { status := "approved" }), (2, { status := "approved" }),
             (3, { status := "approved" })]
  , accesses := [(1, 1), (1, 2)]
  , audits := [] }

/-- Initial state for the quota-invariant counterexample: one free
non-admin user, three approved documents, empty ledger. -/
def c2Init : AppState :=
  { users := [(1, { role := "user", subscription_status := "free" })]
  , docs := [(1, { status := "approved" }), (2, { status := "approved" }),
             (3, { status := "approved" })]
  , accesses := []
  , audits := [] }

/-- Operation sequence that drives `c2Init` to a state violating the quota
invariant: upgrade to paid, download three distinct documents, then a
cancellation event returns the user to free with three ledger rows. -/
def c2Ops : List Op :=
  [ .webhook (completedEvent 1)
  , .download 1 1 true
  , .download 1 2 true
  , .download 1 3 true
  , .webhook (canceledEvent 1) ]

/-- Initial store for the concurrency race: free non-admin user 1 with
ledger size `FREE_DOC_LIMIT - 1 = 1` (document 1 consumed), approved
documents 5 and 6 not yet accessed. -/
def raceState : AppState :=
  { users := [(1, { role := "user", subscription_status := "free" })]
  , docs := [(1, { status := "approved" }), (5, { status := "approved" }),
             (6, { status := "approved" })]
  , accesses := [(1, 1)]
  , audits := [] }

/-- Both requests not yet started. -/
def raceInit : RaceSystem :=
  { shared := raceState
  , req1 := { snapshot := none, result := none }
  , req2 := { snapshot := none, result := none } }

/-- Concrete state for the admin-download witness: admin user 1, document
7 still pending, empty ledger. -/
def adminState : AppState :=
  { users := [(1, { role := "admin", subscription_status := "free" })]
  , docs := [(7, { status := "pending" })]
  , accesses := []
  , audits := [] }

theorem auditPhase_fst (uid docId : Nat) (aok : Bool)
    (x : DownloadResult × AppState) : (auditPhase uid docId aok x).1 = x.1 := by
  rcases x with ⟨res, s⟩
  simp only [auditPhase]
  split_ifs <;> rfl

theorem auditPhase_accesses (uid docId : Nat) (aok : Bool)
    (x : DownloadResult × AppState) :
    (auditPhase uid docId aok x).2.accesses = x.2.accesses := by
  rcases x with ⟨res, s⟩
  simp only [auditPhase]
  split_ifs <;> rfl

theorem auditPhase_users (uid docId : Nat) (aok : Bool)
    (x : DownloadResult × AppState) :
    (auditPhase uid docId aok x).2.users = x.2.users := by
  rcases x with ⟨res, s⟩
  simp only [auditPhase]
  split_ifs <;> rfl

theorem auditPhase_docs (uid docId : Nat) (aok : Bool)
    (x : DownloadResult × AppState) :
    (auditPhase uid docId aok x).2.docs = x.2.docs := by
  rcases x with ⟨res, s⟩
  simp only [auditPhase]
  split_ifs <;> rfl

theorem ledgerPhase_users (limit : Nat) (s : AppState) (uid docId : Nat) :
    (ledgerPhase limit s uid docId).2.users = s.users := by
  unfold ledgerPhase
  split
  · rfl
  · split
    · rfl
    · split_ifs <;> rfl

theorem ledgerPhase_docs (limit : Nat) (s : AppState) (uid docId : Nat) :
    (ledgerPhase limit s uid docId).2.docs = s.docs := by
  unfold ledgerPhase
  split
  · rfl
  · split
    · rfl
    · split_ifs <;> rfl

theorem mem_accessedOf (acc : List (Nat × Nat)) (uid d : Nat) :
    d ∈ accessedOf acc uid ↔ (uid, d) ∈ acc := by
  unfold accessedOf
  simp only [List.mem_toFinset, List.mem_map, List.mem_filter, beq_iff_eq]
  constructor
  · rintro ⟨⟨a, b⟩, ⟨hmem, hk⟩, hv⟩
    simp only at hk hv
    subst hk
    subst hv
    exact hmem
  · intro h
    exact ⟨(uid, d), ⟨h, rfl⟩, rfl⟩

theorem hasAccessed_iff (s : AppState) (uid docId : Nat) :
    hasAccessed s uid docId ↔ docId ∈ accessedDocs s uid := by
  unfold hasAccessed accessedDocs
  exact (mem_accessedOf s.accesses uid docId).symm

theorem accessedOf_append (acc : List (Nat × Nat)) (uid d uid' : Nat) :
    accessedOf (acc ++ [(uid, d)]) uid' =
      if uid' = uid then insert d (accessedOf acc uid')
      else accessedOf acc uid' := by
  by_cases h : uid' = uid
  · subst h
    ext x
    simp [mem_accessedOf, Prod.ext_iff]
    tauto
  · rw [if_neg h]
    ext x
    simp [mem_accessedOf, Prod.ext_iff]
    tauto

theorem ledgerPhase_state (limit : Nat) (s : AppState) (uid docId : Nat) :
    (ledgerPhase limit s uid docId).2 = s ∨
    ((ledgerPhase limit s uid docId).2
        = { s with accesses := s.accesses ++ [(uid, docId)] } ∧
      (ledgerPhase limit s uid docId).1 = .allowed ∧
      docId ∉ accessedDocs s uid ∧
      ∀ user, s.users.lookup uid = some user → user.role ≠ "admin" →
        user.subscription_status ≠ "paid" →
        (accessedDocs s uid).card < limit) := by
  rcases hu : s.users.lookup uid with _ | user
  · simp only [ledgerPhase, hu]
    exact Or.inl trivial
  · rcases hd : s.docs.lookup docId with _ | doc
    · simp only [ledgerPhase, hu, hd]
      exact Or.inl trivial
    · simp only [ledgerPhase, hu, hd]
      split_ifs with h1 h2 h3
      · exact Or.inl rfl
      · exact Or.inl rfl
      · exact Or.inl rfl
      · refine Or.inr ⟨rfl, rfl, h3, ?_⟩
        intro user' hu' hrole hsub
        injection hu' with hu'
        subst hu'
        push_neg at h2
        exact h2 hrole hsub h3

theorem download_doc_fst (limit : Nat) (s : AppState) (uid docId : Nat)
    (aok : Bool) :
    (download_doc limit s uid docId aok).1 = (ledgerPhase limit s uid docId).1 :=
  auditPhase_fst uid docId aok (ledgerPhase limit s uid docId)

theorem download_doc_users (limit : Nat) (s : AppState) (uid docId : Nat)
    (aok : Bool) : (download_doc limit s uid docId aok).2.users = s.users := by
  unfold download_doc
  rw [auditPhase_users, ledgerPhase_users]

theorem download_doc_docs (limit : Nat) (s : AppState) (uid docId : Nat)
    (aok : Bool) : (download_doc limit s uid docId aok).2.docs = s.docs := by
  unfold download_doc
  rw [auditPhase_docs, ledgerPhase_docs]

theorem download_doc_accesses_cases (limit : Nat) (s : AppState)
    (uid docId : Nat) (aok : Bool) :
    (download_doc limit s uid docId aok).2.accesses = s.accesses ∨
    ((download_doc limit s uid docId aok).2.accesses
        = s.accesses ++ [(uid, docId)] ∧
      (download_doc limit s uid docId aok).1 = .allowed ∧
      docId ∉ accessedDocs s uid ∧
      ∀ user, s.users.lookup uid = some user → user.role ≠ "admin" →
        user.subscription_status ≠ "paid" →
        (accessedDocs s uid).card < limit) := by
  have h := ledgerPhase_state limit s uid docId
  have hacc : (download_doc limit s uid docId aok).2.accesses
      = (ledgerPhase limit s uid docId).2.accesses :=
    auditPhase_accesses uid docId aok (ledgerPhase limit s uid docId)
  rcases h with h | ⟨h1, h2, h3, h4⟩
  · left
    rw [hacc, h]
  · right
    refine ⟨?_, ?_, h3, h4⟩
    · rw [hacc, h1]
    · rw [download_doc_fst, h2]

/-- C1: the entitlement decision for a download request follows exactly the
ordered policy of spec §4.3 — deny NotAvailable when the document is not
readable by the user, then allow for admins, for paid subscribers, for an
already-recorded (user, document) ledger pair, and for a distinct-document
count below `FREE_DOC_LIMIT`, otherwise deny QuotaExceeded — for every
user and every document present in the store. -/
theorem download_decision_follows_policy (limit : Nat) (s : AppState)
    (uid docId : Nat) (aok : Bool) (user : UserRec) (doc : DocRec)
    (hu : s.users.lookup uid = some user)
    (hd : s.docs.lookup docId = some doc) :
    resultToDecision (download_doc limit s uid docId aok).1
      = some (decideSpec limit s user doc uid docId) := by
  rw [download_doc_fst]
  unfold ledgerPhase decideSpec isReadableBy countDistinctDocuments
  simp only [hu, hd, hasAccessed_iff]
  split_ifs <;>
    first
      | rfl
      | (exfalso; push_neg at *; omega)
      | (exfalso; push_neg at *; tauto)
      | (exfalso
         push_neg at *
         simp_all
         omega)

theorem auditPhase_fail (uid docId : Nat) (x : DownloadResult × AppState) :
    auditPhase uid docId false x = x := by
  rcases x with ⟨res, s⟩
  simp only [auditPhase]
  split_ifs <;> simp_all

theorem auditPhase_of_ne (uid docId : Nat) (aok : Bool)
    (x : DownloadResult × AppState) (h : x.1 ≠ .allowed) :
    auditPhase uid docId aok x = x := by
  rcases x with ⟨res, s⟩
  simp only [auditPhase]
  rw [if_neg h]

/-- C7: on a download, the ledger write happens before the audit write —
the audit phase receives the ledger phase's state and never changes its
decision or its ledger — and an audit-write failure is absorbed: it rolls
back nothing (the state is exactly the ledger phase's state), and the
caller's response is identical whether or not the audit append
succeeds. -/
theorem audit_failure_absorbed (limit : Nat) (s : AppState)
    (uid docId : Nat) :
    ∀ aok : Bool,
      download_doc limit s uid docId aok
        = auditPhase uid docId aok (ledgerPhase limit s uid docId) ∧
      (download_doc limit s uid docId aok).1
        = (ledgerPhase limit s uid docId).1 ∧
      (download_doc limit s uid docId aok).2.accesses
        = (ledgerPhase limit s uid docId).2.accesses ∧
      (download_doc limit s uid docId false).2
        = (ledgerPhase limit s uid docId).2 ∧
      (download_doc limit s uid docId true).1
        = (download_doc limit s uid docId false).1 := by
  intro aok
  refine ⟨rfl, download_doc_fst limit s uid docId aok,
    auditPhase_accesses uid docId aok (ledgerPhase limit s uid docId), ?_, ?_⟩
  · show (auditPhase uid docId false (ledgerPhase limit s uid docId)).2 = _
    rw [auditPhase_fail]
  · rw [download_doc_fst, download_doc_fst]

/-- C10: a denied download is atomic — whenever the decision is
Deny(NotAvailable) or Deny(QuotaExceeded), no ledger row, no audit row and
no other persisted state changes: the handler returns before any write. -/
theorem denied_download_changes_nothing (limit : Nat) (s : AppState)
    (uid docId : Nat) (aok : Bool)
    (h : (download_doc limit s uid docId aok).1 = .notAvailable ∨
         (download_doc limit s uid docId aok).1 = .quotaExceeded) :
    (download_doc limit s uid docId aok).2 = s := by
  have hne : (ledgerPhase limit s uid docId).1 ≠ .allowed := by
    rw [← download_doc_fst limit s uid docId aok]
    rcases h with h | h <;> rw [h] <;> decide
  have heq := auditPhase_of_ne uid docId aok (ledgerPhase limit s uid docId) hne
  unfold download_doc
  rw [heq]
  rcases ledgerPhase_state limit s uid docId with hs | ⟨_, h2, _, _⟩
  · exact hs
  · exact absurd h2 hne

theorem ledgerPhase_allowed_not_accessed (limit : Nat) (s : AppState)
    (uid docId : Nat)
    (hres : (ledgerPhase limit s uid docId).1 = .allowed)
    (habs : docId ∉ accessedDocs s uid) :
    (ledgerPhase limit s uid docId).2.accesses = s.accesses ++ [(uid, docId)] := by
  rcases hu : s.users.lookup uid with _ | user
  · simp only [ledgerPhase, hu] at hres
    exact absurd hres (by decide)
  · rcases hd : s.docs.lookup docId with _ | doc
    · simp only [ledgerPhase, hu, hd] at hres
      exact absurd hres (by decide)
    · simp only [ledgerPhase, hu, hd] at hres ⊢
      by_cases h1 : doc.status ≠ "approved" ∧ user.role ≠ "admin"
      · rw [if_pos h1] at hres
        simp at hres
      · rw [if_neg h1] at hres ⊢
        by_cases h2 : user.role ≠ "admin" ∧ user.subscription_status ≠ "paid" ∧
            docId ∉ accessedDocs s uid ∧ limit ≤ (accessedDocs s uid).card
        · rw [if_pos h2] at hres
          simp at hres
        · rw [if_neg h2] at hres ⊢
          rw [if_neg habs]

/-- C9: every allowed download inserts a (user, document) ledger row when
none exists, regardless of the user's role or subscription status — the
conditional insert at lines 503-505 runs after every allow, so admin and
paid accesses consume ledger rows exactly like free ones. -/
theorem allowed_download_records_access (limit : Nat) (s : AppState)
    (uid docId : Nat) (aok : Bool)
    (hres : (download_doc limit s uid docId aok).1 = .allowed)
    (habs : docId ∉ accessedDocs s uid) :
    (download_doc limit s uid docId aok).2.accesses
      = s.accesses ++ [(uid, docId)] := by
  rw [download_doc_fst] at hres
  have h := ledgerPhase_allowed_not_accessed limit s uid docId hres habs
  unfold download_doc
  rw [auditPhase_accesses]
  exact h

/-- Witness for C9: an admin downloading a still-pending document gets a
ledger row recorded. -/
theorem allowed_download_records_access_witness :
    (download_doc 2 adminState 1 7 true).2.accesses
      = adminState.accesses ++ [(1, 7)] :=
  allowed_download_records_access 2 adminState 1 7 true (by decide) (by decide)

/-- Witness for C10: a free user at the quota limit denied a new document
leaves the store untouched. -/
theorem denied_download_changes_nothing_witness :
    (download_doc 2 c6State 1 3 true).2 = c6State :=
  denied_download_changes_nothing 2 c6State 1 3 true (Or.inr (by decide))

theorem accessedDocs_congr (s t : AppState) (uid : Nat)
    (h : s.accesses = t.accesses) : accessedDocs s uid = accessedDocs t uid := by
  unfold accessedDocs
  rw [h]

theorem download_accesses_of_accessed (limit : Nat) (s : AppState)
    (uid docId : Nat) (aok : Bool) (h : docId ∈ accessedDocs s uid) :
    (download_doc limit s uid docId aok).2.accesses = s.accesses := by
  rcases download_doc_accesses_cases limit s uid docId aok with hc | ⟨_, _, h3, _⟩
  · exact hc
  · exact absurd h h3

theorem ledgerPhase_allowed_mem (limit : Nat) (s : AppState) (uid docId : Nat)
    (h : (ledgerPhase limit s uid docId).1 = .allowed) :
    docId ∈ accessedDocs (ledgerPhase limit s uid docId).2 uid := by
  rcases hu : s.users.lookup uid with _ | user
  · simp only [ledgerPhase, hu] at h
    simp at h
  · rcases hd : s.docs.lookup docId with _ | doc
    · simp only [ledgerPhase, hu, hd] at h
      simp at h
    · simp only [ledgerPhase, hu, hd] at h ⊢
      by_cases h1 : doc.status ≠ "approved" ∧ user.role ≠ "admin"
      · rw [if_pos h1] at h
        simp at h
      · rw [if_neg h1] at h ⊢
        by_cases h2 : user.role ≠ "admin" ∧ user.subscription_status ≠ "paid" ∧
            docId ∉ accessedDocs s uid ∧ limit ≤ (accessedDocs s uid).card
        · rw [if_pos h2] at h
          simp at h
        · rw [if_neg h2] at h ⊢
          by_cases h3 : docId ∈ accessedDocs s uid
          · rw [if_pos h3]
            exact h3
          · rw [if_neg h3]
            show docId ∈ accessedOf (s.accesses ++ [(uid, docId)]) uid
            rw [accessedOf_append]
            simp

theorem mem_accessedDocs_after_allowed (limit : Nat) (s : AppState)
    (uid docId : Nat) (aok : Bool)
    (h : (download_doc limit s uid docId aok).1 = .allowed) :
    docId ∈ accessedDocs (download_doc limit s uid docId aok).2 uid := by
  rw [download_doc_fst] at h
  have hm := ledgerPhase_allowed_mem limit s uid docId h
  have hacc : (download_doc limit s uid docId aok).2.accesses
      = (ledgerPhase limit s uid docId).2.accesses :=
    auditPhase_accesses uid docId aok (ledgerPhase limit s uid docId)
  rw [accessedDocs_congr _ _ uid hacc]
  exact hm

theorem ledgerPhase_allowed_inv (limit : Nat) (s : AppState) (uid docId : Nat)
    (h : (ledgerPhase limit s uid docId).1 = .allowed) :
    ∃ user doc, s.users.lookup uid = some user ∧
      s.docs.lookup docId = some doc ∧
      ¬(doc.status ≠ "approved" ∧ user.role ≠ "admin") := by
  rcases hu : s.users.lookup uid with _ | user
  · simp only [ledgerPhase, hu] at h
    simp at h
  · rcases hd : s.docs.lookup docId with _ | doc
    · simp only [ledgerPhase, hu, hd] at h
      simp at h
    · refine ⟨user, doc, rfl, rfl, ?_⟩
      intro h1
      simp only [ledgerPhase, hu, hd] at h
      rw [if_pos h1] at h
      simp at h

theorem ledgerPhase_allowed_of_mem (limit : Nat) (t : AppState)
    (uid docId : Nat) (user : UserRec) (doc : DocRec)
    (hu : t.users.lookup uid = some user)
    (hd : t.docs.lookup docId = some doc)
    (hread : ¬(doc.status ≠ "approved" ∧ user.role ≠ "admin"))
    (hmem : docId ∈ accessedDocs t uid) :
    (ledgerPhase limit t uid docId).1 = .allowed := by
  simp only [ledgerPhase, hu, hd]
  rw [if_neg hread]
  rw [if_neg (by tauto : ¬(user.role ≠ "admin" ∧
      user.subscription_status ≠ "paid" ∧ docId ∉ accessedDocs t uid ∧
      limit ≤ (accessedDocs t uid).card))]
  rw [if_pos hmem]

theorem iterDownload_users (limit : Nat) (uid docId : Nat) (aok : Bool) :
    ∀ n s, (iterDownload limit uid docId aok n s).users = s.users := by
  intro n
  induction n with
  | zero => intro s; rfl
  | succ m ih =>
    intro s
    show (iterDownload limit uid docId aok m (download_doc limit s uid docId aok).2).users = s.users
    rw [ih, download_doc_users]

theorem iterDownload_docs (limit : Nat) (uid docId : Nat) (aok : Bool) :
    ∀ n s, (iterDownload limit uid docId aok n s).docs = s.docs := by
  intro n
  induction n with
  | zero => intro s; rfl
  | succ m ih =>
    intro s
    show (iterDownload limit uid docId aok m (download_doc limit s uid docId aok).2).docs = s.docs
    rw [ih, download_doc_docs]

theorem iterDownload_accesses_of_accessed (limit : Nat) (uid docId : Nat)
    (aok : Bool) :
    ∀ n s, docId ∈ accessedDocs s uid →
      (iterDownload limit uid docId aok n s).accesses = s.accesses := by
  intro n
  induction n with
  | zero => intro s _; rfl
  | succ m ih =>
    intro s h
    have h1 := download_accesses_of_accessed limit s uid docId aok h
    have h2 : docId ∈ accessedDocs (download_doc limit s uid docId aok).2 uid := by
      rw [accessedDocs_congr _ s uid h1]
      exact h
    show (iterDownload limit uid docId aok m (download_doc limit s uid docId aok).2).accesses = s.accesses
    rw [ih _ h2, h1]

/-- C4: granting download access to the same (user, document) pair any
number of times N ≥ 1 leaves the ledger (and so its cardinality) equal to
what it is after the first grant, every repeat access is still allowed,
and no additional ledger row is inserted. -/
theorem repeated_download_ledger_stable (limit : Nat) (s : AppState)
    (uid docId : Nat) (aok : Bool)
    (h : (download_doc limit s uid docId aok).1 = .allowed) :
    ∀ n, 1 ≤ n →
      (iterDownload limit uid docId aok n s).accesses
        = (iterDownload limit uid docId aok 1 s).accesses ∧
      countDistinctDocuments (iterDownload limit uid docId aok n s) uid
        = countDistinctDocuments (iterDownload limit uid docId aok 1 s) uid ∧
      (download_doc limit (iterDownload limit uid docId aok n s) uid docId aok).1
        = .allowed := by
  intro n hn
  obtain ⟨m, rfl⟩ : ∃ m, n = m + 1 := ⟨n - 1, by omega⟩
  have hmem := mem_accessedDocs_after_allowed limit s uid docId aok h
  have hstep : iterDownload limit uid docId aok (m + 1) s
      = iterDownload limit uid docId aok m (download_doc limit s uid docId aok).2 := rfl
  have hone : iterDownload limit uid docId aok 1 s
      = (download_doc limit s uid docId aok).2 := rfl
  have hacc : (iterDownload limit uid docId aok m
      (download_doc limit s uid docId aok).2).accesses
      = (download_doc limit s uid docId aok).2.accesses :=
    iterDownload_accesses_of_accessed limit uid docId aok m _ hmem
  have haccesses : (iterDownload limit uid docId aok (m + 1) s).accesses
      = (iterDownload limit uid docId aok 1 s).accesses := by
    rw [hstep, hone, hacc]
  have hacc2 : (iterDownload limit uid docId aok (m + 1) s).accesses
      = (download_doc limit s uid docId aok).2.accesses := by
    rw [hstep, hacc]
  refine ⟨haccesses, ?_, ?_⟩
  · unfold countDistinctDocuments
    rw [accessedDocs_congr _ _ uid haccesses]
  · rw [download_doc_fst] at h ⊢
    obtain ⟨user, doc, hu, hd, hread⟩ := ledgerPhase_allowed_inv limit s uid docId h
    have husers : (iterDownload limit uid docId aok (m + 1) s).users = s.users := by
      rw [iterDownload_users]
    have hdocs : (iterDownload limit uid docId aok (m + 1) s).docs = s.docs := by
      rw [iterDownload_docs]
    have hmem' : docId ∈ accessedDocs (iterDownload limit uid docId aok (m + 1) s) uid := by
      rw [accessedDocs_congr _ _ uid hacc2]
      exact hmem
    exact ledgerPhase_allowed_of_mem limit _ uid docId user doc
      (by rw [husers]; exact hu) (by rw [hdocs]; exact hd) hread hmem'

/-- Witness for C4: a free user repeating an allowed first-time download
three times ends with the same ledger as after the first download, and the
third repeat is still allowed. -/
theorem repeated_download_ledger_stable_witness :
    (iterDownload 2 1 5 true 3 raceState).accesses
      = (iterDownload 2 1 5 true 1 raceState).accesses ∧
    countDistinctDocuments (iterDownload 2 1 5 true 3 raceState) 1
      = countDistinctDocuments (iterDownload 2 1 5 true 1 raceState) 1 ∧
    (download_doc 2 (iterDownload 2 1 5 true 3 raceState) 1 5 true).1
      = .allowed :=
  repeated_download_ledger_stable 2 raceState 1 5 true (by decide) 3 (by decide)

theorem lookup_cons_eq_key (k : Nat) (u : UserRec) (t : List (Nat × UserRec)) :
    ((k, u) :: t).lookup k = some u := by
  simp [List.lookup]

theorem lookup_cons_ne_key (a k : Nat) (u : UserRec) (t : List (Nat × UserRec))
    (h : a ≠ k) : ((k, u) :: t).lookup a = t.lookup a := by
  simp [List.lookup, beq_eq_false_iff_ne.mpr h]

theorem setSubRow_eq_key (k uid : Nat) (v : String) (u : UserRec) (h : k = uid) :
    setSubRow uid v (k, u) = (k, { u with subscription_status := v }) := by
  simp [setSubRow, h]

theorem setSubRow_ne_key (k uid : Nat) (v : String) (u : UserRec) (h : k ≠ uid) :
    setSubRow uid v (k, u) = (k, u) := by
  simp [setSubRow, h]

theorem lookup_map_setSub (l : List (Nat × UserRec)) (uid : Nat) (v : String)
    (uid' : Nat) :
    (l.map (setSubRow uid v)).lookup uid'
      = (l.lookup uid').map
          (fun u => if uid' = uid then { u with subscription_status := v } else u) := by
  induction l with
  | nil => rfl
  | cons q t ih =>
    rcases q with ⟨k, u⟩
    rw [List.map_cons]
    by_cases h1 : k = uid
    · rw [setSubRow_eq_key k uid v u h1]
      by_cases h2 : uid' = k
      · subst h2
        rw [lookup_cons_eq_key, lookup_cons_eq_key]
        simp [h1]
      · rw [lookup_cons_ne_key uid' k _ _ h2, lookup_cons_ne_key uid' k u t h2, ih]
    · rw [setSubRow_ne_key k uid v u h1]
      by_cases h2 : uid' = k
      · subst h2
        rw [lookup_cons_eq_key, lookup_cons_eq_key]
        simp [h1]
      · rw [lookup_cons_ne_key uid' k _ _ h2, lookup_cons_ne_key uid' k u t h2, ih]

theorem setSubscription_lookup (s : AppState) (uid : Nat) (v : String)
    (uid' : Nat) :
    (setSubscription s uid v).users.lookup uid'
      = (s.users.lookup uid').map
          (fun u => if uid' = uid then { u with subscription_status := v } else u) :=
  lookup_map_setSub s.users uid v uid'

theorem billing_completed (s : AppState) (uid : Nat) (u : UserRec)
    (h : s.users.lookup uid = some u) :
    billing_webhook s (completedEvent uid) = (true, setSubscription s uid "paid") := by
  simp [billing_webhook, completedEvent, h]

theorem billing_canceled (s : AppState) (uid : Nat) (u : UserRec)
    (h : s.users.lookup uid = some u) :
    billing_webhook s (canceledEvent uid) = (true, setSubscription s uid "free") := by
  simp [billing_webhook, canceledEvent, h]

theorem completed_lookup (s : AppState) (uid : Nat) (u : UserRec)
    (h : s.users.lookup uid = some u) :
    (billing_webhook s (completedEvent uid)).2.users.lookup uid
      = some { u with subscription_status := "paid" } := by
  rw [billing_completed s uid u h]
  show (setSubscription s uid "paid").users.lookup uid = _
  rw [setSubscription_lookup, h]
  simp

theorem canceled_lookup (s : AppState) (uid : Nat) (u : UserRec)
    (h : s.users.lookup uid = some u) :
    (billing_webhook s (canceledEvent uid)).2.users.lookup uid
      = some { u with subscription_status := "free" } := by
  rw [billing_canceled s uid u h]
  show (setSubscription s uid "free").users.lookup uid = _
  rw [setSubscription_lookup, h]
  simp

theorem applyEvents_append (s : AppState) (l l' : List PaymentEvent) :
    applyEvents s (l ++ l') = applyEvents (applyEvents s l) l' := by
  unfold applyEvents
  rw [List.foldl_append]

theorem completed_replicate (uid : Nat) :
    ∀ n s u, s.users.lookup uid = some u →
      ∃ u', (applyEvents s (List.replicate (n + 1) (completedEvent uid))).users.lookup uid
          = some u' ∧ u'.subscription_status = "paid" := by
  intro n
  induction n with
  | zero =>
    intro s u h
    exact ⟨{ u with subscription_status := "paid" }, completed_lookup s uid u h, rfl⟩
  | succ m ih =>
    intro s u h
    have hstep : applyEvents s (List.replicate (m + 2) (completedEvent uid))
        = applyEvents (billing_webhook s (completedEvent uid)).2
            (List.replicate (m + 1) (completedEvent uid)) := by
      rw [List.replicate_succ]
      rfl
    rw [hstep]
    exact ih _ _ (completed_lookup s uid u h)

/-- C5: payment-event processing is idempotent last-write-wins — applying
`completed(u)` N ≥ 1 times leaves `subscription_status = "paid"`, and
applying `canceled(u)` after any number of `completed(u)` events leaves
`subscription_status = "free"`. -/
theorem payment_events_idempotent (s : AppState) (uid : Nat) (u : UserRec)
    (h : s.users.lookup uid = some u) :
    ∀ n, 1 ≤ n →
      getSubscription (applyEvents s (List.replicate n (completedEvent uid))) uid
        = some "paid" ∧
      getSubscription
          (applyEvents s
            (List.replicate n (completedEvent uid) ++ [canceledEvent uid])) uid
        = some "free" := by
  intro n hn
  obtain ⟨m, rfl⟩ : ∃ m, n = m + 1 := ⟨n - 1, by omega⟩
  obtain ⟨u', hu', hpaid⟩ := completed_replicate uid m s u h
  constructor
  · unfold getSubscription
    rw [hu']
    simp [hpaid]
  · rw [applyEvents_append]
    show getSubscription
      (billing_webhook (applyEvents s (List.replicate (m + 1) (completedEvent uid)))
        (canceledEvent uid)).2 uid = some "free"
    unfold getSubscription
    rw [canceled_lookup _ uid u' hu']
    simp

/-- Witness for C5: a concrete free user, two completed events, then a
canceled event. -/
theorem payment_events_idempotent_witness :
    getSubscription (applyEvents c2Init (List.replicate 2 (completedEvent 1))) 1
      = some "paid" ∧
    getSubscription
        (applyEvents c2Init
          (List.replicate 2 (completedEvent 1) ++ [canceledEvent 1])) 1
      = some "free" :=
  payment_events_idempotent c2Init 1
    { role := "user", subscription_status := "free" } (by decide) 2 (by decide)

/-- C8: webhook processing of a verified event whose kind is neither
checkout.session.completed nor customer.subscription.deleted, or whose
user reference is missing or does not resolve to an existing user, is a
no-op that leaves the whole store (in particular every user's
subscription_status) unchanged and acknowledges success. -/
theorem webhook_unknown_event_noop (s : AppState) (ev : PaymentEvent)
    (h : (ev.type ≠ "checkout.session.completed" ∧
          ev.type ≠ "customer.subscription.deleted") ∨
         ev.user_id = none ∨
         (∃ uid, ev.user_id = some uid ∧ s.users.lookup uid = none)) :
    billing_webhook s ev = (true, s) ∧
    ∀ uid, getSubscription (billing_webhook s ev).2 uid = getSubscription s uid := by
  have hmain : billing_webhook s ev = (true, s) := by
    unfold billing_webhook
    rcases h with ⟨h1, h2⟩ | h1 | ⟨uid, h1, h2⟩
    · rw [if_neg h1, if_neg h2]
    · split_ifs <;> simp [h1]
    · split_ifs <;> simp [h1, h2]
  exact ⟨hmain, fun uid => by rw [hmain]⟩

/-- Witness for C8: an unrelated event type is acknowledged and changes
nothing. -/
theorem webhook_unknown_event_noop_witness :
    billing_webhook c6State { type := "invoice.paid", user_id := some 1 }
      = (true, c6State) ∧
    ∀ uid, getSubscription
        (billing_webhook c6State { type := "invoice.paid", user_id := some 1 }).2 uid
      = getSubscription c6State uid :=
  webhook_unknown_event_noop c6State { type := "invoice.paid", user_id := some 1 }
    (Or.inl (by decide))

theorem countDistinct_congr (s t : AppState) (uid : Nat)
    (h : s.accesses = t.accesses) :
    countDistinctDocuments s uid = countDistinctDocuments t uid := by
  unfold countDistinctDocuments
  rw [accessedDocs_congr s t uid h]

theorem setSubscription_keys (s : AppState) (uid : Nat) (v : String) :
    (setSubscription s uid v).users.map Prod.fst = s.users.map Prod.fst := by
  show (s.users.map (setSubRow uid v)).map Prod.fst = _
  rw [List.map_map]
  apply List.map_congr_left
  intro p _
  rcases p with ⟨k, u⟩
  by_cases h : k = uid
  · simp [setSubRow, h]
  · simp [setSubRow, h]

theorem lookup_of_mem_nodupKeys :
    ∀ l : List (Nat × UserRec), (l.map Prod.fst).Nodup →
      ∀ p : Nat × UserRec, p ∈ l → l.lookup p.1 = some p.2 := by
  intro l
  induction l with
  | nil =>
    intro _ p hp
    cases hp
  | cons q t ih =>
    intro hk p hp
    rcases q with ⟨k, u⟩
    rw [List.map_cons, List.nodup_cons] at hk
    rcases List.mem_cons.mp hp with h | h
    · subst h
      exact lookup_cons_eq_key k u t
    · have hne : p.1 ≠ k := by
        intro e
        have hm : p.1 ∈ t.map Prod.fst := List.mem_map_of_mem Prod.fst h
        rw [e] at hm
        exact hk.1 hm
      rw [lookup_cons_ne_key p.1 k u t hne]
      exact ih hk.2 p h

theorem setSubscription_paid_preserves (limit : Nat) (s : AppState) (uid : Nat)
    (h : QuotaInvariant limit s) :
    QuotaInvariant limit (setSubscription s uid "paid") := by
  intro p hp hrole hsub
  have hcd : countDistinctDocuments (setSubscription s uid "paid") p.1
      = countDistinctDocuments s p.1 := countDistinct_congr _ _ _ rfl
  rw [hcd]
  rcases List.mem_map.mp hp with ⟨q, hq, hfq⟩
  rcases q with ⟨k, u⟩
  by_cases hk : k = uid
  · rw [setSubRow_eq_key k uid _ u hk] at hfq
    rw [← hfq] at hsub
    simp at hsub
  · rw [setSubRow_ne_key k uid _ u hk] at hfq
    rw [← hfq] at hrole hsub ⊢
    exact h (k, u) hq hrole hsub

theorem download_preserves_quota (limit : Nat) (s : AppState)
    (uid docId : Nat) (aok : Bool)
    (hk : (s.users.map Prod.fst).Nodup) (h : QuotaInvariant limit s) :
    QuotaInvariant limit (download_doc limit s uid docId aok).2 := by
  intro p hp hrole hsub
  rw [download_doc_users] at hp
  rcases download_doc_accesses_cases limit s uid docId aok with hc | ⟨h1, _, h3, h4⟩
  · rw [countDistinct_congr _ s p.1 hc]
    exact h p hp hrole hsub
  · by_cases hpu : p.1 = uid
    · have hlk : s.users.lookup uid = some p.2 := by
        rw [← hpu]
        exact lookup_of_mem_nodupKeys s.users hk p hp
      have hsub' : p.2.subscription_status ≠ "paid" := by
        rw [hsub]
        decide
      have hlt := h4 p.2 hlk hrole hsub'
      unfold countDistinctDocuments accessedDocs
      rw [h1, hpu, accessedOf_append, if_pos rfl]
      have hcle := Finset.card_insert_le docId (accessedOf s.accesses uid)
      unfold countDistinctDocuments accessedDocs at hlt
      omega
    · unfold countDistinctDocuments accessedDocs
      rw [h1, accessedOf_append, if_neg hpu]
      have hold := h p hp hrole hsub
      unfold countDistinctDocuments accessedDocs at hold
      exact hold

theorem checkout_preserves_quota (limit : Nat) (s : AppState) (uid : Nat)
    (h : QuotaInvariant limit s) :
    QuotaInvariant limit (start_checkout s uid) := by
  unfold start_checkout
  split
  · exact setSubscription_paid_preserves limit s uid h
  · exact h

theorem webhook_preserves_quota (limit : Nat) (s : AppState) (ev : PaymentEvent)
    (hnc : ev.type ≠ "customer.subscription.deleted")
    (h : QuotaInvariant limit s) :
    QuotaInvariant limit (billing_webhook s ev).2 := by
  unfold billing_webhook
  by_cases h1 : ev.type = "checkout.session.completed"
  · rw [if_pos h1]
    split
    · split
      · exact setSubscription_paid_preserves limit s _ h
      · exact h
    · exact h
  · rw [if_neg h1, if_neg hnc]
    exact h

theorem checkout_keys (s : AppState) (uid : Nat) :
    (start_checkout s uid).users.map Prod.fst = s.users.map Prod.fst := by
  unfold start_checkout
  split
  · exact setSubscription_keys s _ _
  · rfl

theorem webhook_keys (s : AppState) (ev : PaymentEvent) :
    (billing_webhook s ev).2.users.map Prod.fst = s.users.map Prod.fst := by
  unfold billing_webhook
  split_ifs
  · split
    · split
      · exact setSubscription_keys s _ _
      · rfl
    · rfl
  · split
    · split
      · exact setSubscription_keys s _ _
      · rfl
    · rfl
  · rfl

theorem applyOp_preserves_quota (limit : Nat) (s : AppState) (op : Op)
    (hop : op.isCancelEvent = false)
    (hk : (s.users.map Prod.fst).Nodup) (h : QuotaInvariant limit s) :
    ((applyOp limit s op).users.map Prod.fst).Nodup ∧
    QuotaInvariant limit (applyOp limit s op) := by
  cases op with
  | download uid docId aok =>
    constructor
    · show ((download_doc limit s uid docId aok).2.users.map Prod.fst).Nodup
      rw [download_doc_users]
      exact hk
    · exact download_preserves_quota limit s uid docId aok hk h
  | checkout uid =>
    constructor
    · show ((start_checkout s uid).users.map Prod.fst).Nodup
      rw [checkout_keys]
      exact hk
    · exact checkout_preserves_quota limit s uid h
  | webhook ev =>
    have hnc : ev.type ≠ "customer.subscription.deleted" := by
      simp [Op.isCancelEvent] at hop
      exact hop
    constructor
    · show ((billing_webhook s ev).2.users.map Prod.fst).Nodup
      rw [webhook_keys]
      exact hk
    · exact webhook_preserves_quota limit s ev hnc h

/-- C2 (counterexample): the quota invariant does not hold in every
reachable state — starting from an empty ledger where it holds, the
sequence completed(u); download d1; download d2; download d3; canceled(u)
with `FREE_DOC_LIMIT = 2` ends with user 1 free, non-admin and holding 3
distinct ledger documents. -/
theorem quota_invariant_counterexample :
    c2Init.accesses = [] ∧ QuotaInvariant 2 c2Init ∧
    (runOps 2 c2Init c2Ops).users.lookup 1
      = some { role := "user", subscription_status := "free" } ∧
    countDistinctDocuments (runOps 2 c2Init c2Ops) 1 = 3 ∧
    ¬ QuotaInvariant 2 (runOps 2 c2Init c2Ops) := by
  decide

/-- C2 (amended): for every user whose role is not admin and whose
subscription status is free, the distinct-document ledger count stays at
most `FREE_DOC_LIMIT` in every state reached from a state satisfying the
invariant (with key-unique user rows) by any sequence of downloads,
checkouts and payment events that contains no
customer.subscription.deleted event; a cancellation event can return an
over-quota paid user to free and break the bound. -/
theorem quota_invariant_without_cancellation (limit : Nat) (s : AppState)
    (ops : List Op) (hk : (s.users.map Prod.fst).Nodup)
    (h : QuotaInvariant limit s)
    (hops : ∀ op ∈ ops, op.isCancelEvent = false) :
    QuotaInvariant limit (runOps limit s ops) := by
  induction ops generalizing s with
  | nil => exact h
  | cons op t ih =>
    have hstep := applyOp_preserves_quota limit s op
      (hops op (List.mem_cons_self op t)) hk h
    show QuotaInvariant limit (runOps limit (applyOp limit s op) t)
    exact ih (applyOp limit s op) hstep.1 hstep.2
      (fun o ho => hops o (List.mem_cons_of_mem op ho))

/-- Witness for the amended C2: upgrade then three downloads, no
cancellation — the invariant still holds at the end. -/
theorem quota_invariant_without_cancellation_witness :
    QuotaInvariant 2 (runOps 2 c2Init
      [Op.checkout 1, Op.download 1 1 true, Op.download 1 2 true,
       Op.download 1 3 true]) :=
  quota_invariant_without_cancellation 2 c2Init
    [Op.checkout 1, Op.download 1 1 true, Op.download 1 2 true,
     Op.download 1 3 true]
    (by decide) (by decide) (by decide)

/-- C3 (failing interleaving): a free non-admin user at ledger size
`FREE_DOC_LIMIT - 1 = 1` issues two concurrent first-time requests for
approved documents 5 and 6; under the schedule read1, read2, commit1,
commit2 (both handlers read the line-498 `accessed` snapshot before either
commits) both requests are allowed, and the ledger ends with 3 distinct
documents, exceeding the limit — the source's check-then-insert uses the
stale in-memory snapshot, so the claimed exactly-one-Allow outcome is not
enforced. -/
theorem quota_race_both_allowed :
    getSubscription raceState 1 = some "free" ∧
    countDistinctDocuments raceState 1 = 1 ∧
    (runRace 2 1 5 6 [true, false, true, false] raceInit).req1.result
      = some .allowed ∧
    (runRace 2 1 5 6 [true, false, true, false] raceInit).req2.result
      = some .allowed ∧
    countDistinctDocuments
        (runRace 2 1 5 6 [true, false, true, false] raceInit).shared 1 = 3 := by
  decide

/-- C6: with `FREE_DOC_LIMIT = 2`, a free non-admin user with ledger
{d1, d2} is denied d3 with QuotaExceeded; after processing completed(u)
the subscription is paid and re-requesting d3 is allowed, with the ledger
becoming {d1, d2, d3} — the paid download still records a ledger row. -/
theorem quota_upgrade_scenario :
    (download_doc 2 c6State 1 3 true).1 = .quotaExceeded ∧
    (download_doc 2 c6State 1 3 true).2 = c6State ∧
    getSubscription (billing_webhook c6State (completedEvent 1)).2 1
      = some "paid" ∧
    (download_doc 2 (billing_webhook c6State (completedEvent 1)).2 1 3 true).1
      = .allowed ∧
    accessedDocs
        (download_doc 2 (billing_webhook c6State (completedEvent 1)).2 1 3 true).2 1
      = {1, 2, 3} := by
  decide

/-- Witness for C1 at a concrete store: a free user over quota requesting
a new approved document — the source decision and the spec policy agree. -/
theorem download_decision_follows_policy_witness :
    resultToDecision (download_doc 2 c6State 1 3 true).1
      = some (decideSpec 2 c6State
          { role := "user", subscription_status := "free" }
          { status := "approved" } 1 3) :=
  download_decision_follows_policy 2 c6State 1 3 true
    { role := "user", subscription_status := "free" }
    { status := "approved" } (by decide) (by decide)

end ForStudents
